import Mathlib

namespace StreamCompare

/-!
Verification of the stream-compare engine
(node_modules/stream-compare: lib/make-incremental.js and the main module).

The JavaScript source is shallowly embedded: JS values become the inductive
type JSVal, thrown values become JSException, a stream state becomes the
structure MStreamState, and the stateful comparison controller becomes the
structure Engine with explicit transition functions (doCompare, checkpointOp,
endOp, dispatchEvent, handleDataM, readNextLoop, ...).  Comparison callbacks
are modelled as pure functions returning an Except outcome together with the
(possibly mutated) states.
-/

/-- A JavaScript value, as far as the engine observes it. -/
inductive JSVal where
  | vUndefined
  | vNull
  | vBool (b : Bool)
  | vNum (n : Int)
  | vStr (s : String)
  | vBuf (b : List Nat)
  deriving DecidableEq, Repr

/-- A thrown JavaScript value: either a TypeError produced by the engine
itself (addData / option validation) or an arbitrary user-thrown value. -/
inductive JSException where
  | typeError (msg : String)
  | value (v : JSVal)
  deriving DecidableEq, Repr

/-- Is a JSException of TypeError class? -/
def JSException.isTypeError : JSException → Bool
  | .typeError _ => true
  | .value _ => false

/-- A comparison result is conclusive exactly when it is neither
null nor undefined (source: result !== null, result !== undefined). -/
def isConcl (v : JSVal) : Bool :=
  v != JSVal.vNull && v != JSVal.vUndefined

/-- Length of a possibly-absent (undefined) array-like property;
an absent value contributes length 0 (source: values1 ? values1.length : 0). -/
def optLen {σ : Type} (len : σ → Nat) : Option σ → Nat
  | none => 0
  | some v => len v

/-- The evidence guard of incrementalProp for one state (source line
27-28): the property is truthy with nonzero length, or the stream ended.
A nonempty JS string/array is truthy; the empty string is falsy but has
length 0, so presence-with-nonzero-length captures both conjuncts. -/
def hasEvidence {σ : Type} (len : σ → Nat) (s : Option σ) (ended : Bool) : Bool :=
  (match s with
   | none => false
   | some v => decide (len v ≠ 0)) || ended

/-- The post-comparison step of incrementalProp (source lines 42-45): if the
comparison ran to a value and minLen > 0 with an inconclusive (null or
undefined) result, both sequences are trimmed by dropping the compared
prefix; a thrown value propagates before the trimming statement runs. -/
def applyTrim {σ : Type} (dp : Nat → σ → σ) (minLen : Nat) (s1 s2 : Option σ) :
    Except JSException JSVal → Except JSException JSVal × Option σ × Option σ
  | .error e => (.error e, s1, s2)
  | .ok r =>
      if 0 < minLen && !isConcl r then
        (.ok r, s1.map (dp minLen), s2.map (dp minLen))
      else
        (.ok r, s1, s2)

/-- Which truncation the comparison function sees (source lines 34-40):
if the first sequence is strictly longer than the usable length and the
second stream has not ended, the first is truncated; symmetrically for the
second; otherwise both full values are passed. -/
def chooseCompare {σ : Type} (len : σ → Nat) (tk : Nat → σ → σ)
    (ended1 ended2 : Bool) (s1 s2 : Option σ) (minLen : Nat)
    (cmp : Option σ → Option σ → Except JSException JSVal) :
    Except JSException JSVal :=
  if decide (minLen < optLen len s1) && !ended2 then
    cmp (s1.map (tk minLen)) s2
  else if decide (minLen < optLen len s2) && !ended1 then
    cmp s1 (s2.map (tk minLen))
  else
    cmp s1 s2

/-- Embedding of incrementalProp (make-incremental.js lines 21-49),
generic over the array-like property type σ with explicit length / slice
operations.  Returns the comparison outcome (the JS return value, or the
propagated thrown value) together with the new values of the two states'
property. -/
def incrementalProp {σ : Type} (len : σ → Nat) (tk dp : Nat → σ → σ)
    (ended1 ended2 : Bool) (s1 s2 : Option σ)
    (cmp : Option σ → Option σ → Except JSException JSVal) :
    Except JSException JSVal × Option σ × Option σ :=
  if hasEvidence len s1 ended1 && hasEvidence len s2 ended2 then
    let minLen := min (optLen len s1) (optLen len s2)
    applyTrim dp minLen s1 s2 (chooseCompare len tk ended1 ended2 s1 s2 minLen cmp)
  else
    (.ok .vUndefined, s1, s2)

/-- A recorded stream event: name and argument list (source: the object
pushed by the event recorder, with name and args fields). -/
structure EventRec where
  name : String
  args : List JSVal
  deriving DecidableEq, Repr

/-- The accumulated data of a stream in non-object mode (string or Buffer)
or object mode (Array).  The absent (undefined) case is Option.none at the
use site, matching the undefined initial value of StreamState.data. -/
inductive JSData where
  | str (s : String)
  | buf (b : List Nat)
  | arr (l : List JSVal)
  deriving DecidableEq, Repr

/-- JS length of an accumulated data value. -/
def JSData.length : JSData → Nat
  | .str s => s.length
  | .buf b => b.length
  | .arr l => l.length

/-- JS slice(0, n) of an accumulated data value. -/
def JSData.take (n : Nat) : JSData → JSData
  | .str s => .str (s.take n)
  | .buf b => .buf (b.take n)
  | .arr l => .arr (l.take n)

/-- JS slice(n) of an accumulated data value. -/
def JSData.drop (n : Nat) : JSData → JSData
  | .str s => .str (s.drop n)
  | .buf b => .buf (b.drop n)
  | .arr l => .arr (l.drop n)

/-- Embedding of StreamState (main module lines 163-176): ended flag,
recorded events (initially empty array), accumulated data (initially
undefined), and the running total data length. -/
structure MStreamState where
  ended : Bool
  events : List EventRec
  data : Option JSData
  totalDataLen : Nat
  deriving DecidableEq, Repr

/-- The initial StreamState built by the constructor. -/
def initialState : MStreamState :=
  { ended := false, events := [], data := none, totalDataLen := 0 }

/-- A caller-supplied compare / incremental function: it receives the two
stream states and produces an outcome (returned value or thrown value)
together with the possibly mutated states. -/
def CompareFn : Type :=
  MStreamState → MStreamState →
    Except JSException JSVal × MStreamState × MStreamState

/-- The data half of the composed incremental function (make-incremental.js
line 77-78): if compareData is absent the result is the falsy function
value itself (inconclusive, modelled as undefined); otherwise incrementalProp
runs on the data property and writes back the trimmed values. -/
def dataPass (cd : Option (Option JSData → Option JSData → Except JSException JSVal))
    (st1 st2 : MStreamState) :
    Except JSException JSVal × MStreamState × MStreamState :=
  match cd with
  | none => (.ok .vUndefined, st1, st2)
  | some f =>
      let out := incrementalProp JSData.length JSData.take JSData.drop
        st1.ended st2.ended st1.data st2.data f
      (out.1, { st1 with data := out.2.1 }, { st2 with data := out.2.2 })

/-- The events half of the composed incremental function (make-incremental.js
line 79-80): incrementalProp on the events property (always an array in a
StreamState, hence wrapped in some). -/
def eventsPass (ce : Option (Option (List EventRec) → Option (List EventRec) →
      Except JSException JSVal))
    (st1 st2 : MStreamState) :
    Except JSException JSVal × MStreamState × MStreamState :=
  match ce with
  | none => (.ok .vUndefined, st1, st2)
  | some g =>
      let out := incrementalProp List.length List.take List.drop
        st1.ended st2.ended (some st1.events) (some st2.events) g
      (out.1,
       { st1 with events := out.2.1.getD [] },
       { st2 with events := out.2.2.getD [] })

/-- Embedding of the function returned by makeIncremental (make-incremental.js
lines 75-86).  The data pass runs first; a thrown value from it propagates at
once (the events comparison never runs).  Otherwise the events pass also runs
-- unconditionally, whatever the data verdict -- and a thrown value from it
propagates.  When neither throws, the returned verdict is the data result if
it is neither null nor undefined, else the events result. -/
def makeIncrementalFn
    (cd : Option (Option JSData → Option JSData → Except JSException JSVal))
    (ce : Option (Option (List EventRec) → Option (List EventRec) →
      Except JSException JSVal)) :
    CompareFn := fun st1 st2 =>
  match dataPass cd st1 st2 with
  | (.error e, u1, u2) => (.error e, u1, u2)
  | (.ok dr, u1, u2) =>
      match eventsPass ce u1 u2 with
      | (.error e, w1, w2) => (.error e, w1, w2)
      | (.ok er, w1, w2) => (.ok (if isConcl dr then dr else er), w1, w2)

instance {ε α : Type} [DecidableEq ε] [DecidableEq α] :
    DecidableEq (Except ε α) := fun a b =>
  match a, b with
  | .ok x, .ok y =>
      if h : x = y then isTrue (by rw [h])
      else isFalse (by intro hh; cases hh; exact h rfl)
  | .error x, .error y =>
      if h : x = y then isTrue (by rw [h])
      else isFalse (by intro hh; cases hh; exact h rfl)
  | .ok _, .error _ => isFalse (by intro hh; cases hh)
  | .error _, .ok _ => isFalse (by intro hh; cases hh)

/-- The three read policies of the main module. -/
inductive MReadPolicy where
  | flowing
  | least
  | nothing
  deriving DecidableEq, Repr

/-- The comparison type passed to doCompare (CompareType in the source). -/
inductive CompareType where
  | checkpoint
  | incremental
  | last
  deriving DecidableEq, Repr

/-- The validated option snapshot of a running comparison (after the
defaulting and validation at the head of streamCompare). -/
structure Config where
  abortOnError : Bool
  objectMode : Bool
  events : List String
  endEvents : List String
  readPolicy : MReadPolicy
  compare : CompareFn
  incremental : Option CompareFn

/-- Identifies one of the two streams under comparison. -/
inductive StreamId where
  | s1
  | s2
  deriving DecidableEq, Repr

/-- The mutable closure state of one running streamCompare call: the two
StreamStates, the ended counter, the isDone flag, the promise (none while
pending, first settlement wins), how many times done() has run (that is,
how many times the listener teardown block executed), and whether the
post-end final compare is scheduled on a timer. -/
structure Engine where
  state1 : MStreamState
  state2 : MStreamState
  endedCount : Nat
  isDone : Bool
  result : Option (Except JSException JSVal)
  teardownCount : Nat
  finalScheduled : Bool
  deriving DecidableEq, Repr

/-- The engine state at the start of a comparison. -/
def initialEngine : Engine :=
  { state1 := initialState, state2 := initialState, endedCount := 0,
    isDone := false, result := none, teardownCount := 0,
    finalScheduled := false }

/-- Read the StreamState of one stream. -/
def getState : StreamId → Engine → MStreamState
  | .s1, e => e.state1
  | .s2, e => e.state2

/-- Replace the StreamState of one stream. -/
def setState : StreamId → MStreamState → Engine → Engine
  | .s1, st, e => { e with state1 := st }
  | .s2, st, e => { e with state2 := st }

/-- Promise resolution: only the first settlement counts. -/
def resolveP (v : JSVal) (e : Engine) : Engine :=
  if e.result.isSome then e else { e with result := some (.ok v) }

/-- Promise rejection: only the first settlement counts. -/
def rejectP (err : JSException) (e : Engine) : Engine :=
  if e.result.isSome then e else { e with result := some (.error err) }

/-- Embedding of done() (main module lines 328-357): marks the comparison
finished, removes every registered listener (counted by teardownCount) and
cancels any pending post-end timer. -/
def doneE (e : Engine) : Engine :=
  { e with
    isDone := true
    teardownCount := e.teardownCount + 1
    finalScheduled := false }

/-- Embedding of doCompare (main module lines 365-392): run the comparison
function on the two states; a returned value that is neither undefined nor
null resolves the promise and finishes; a thrown value rejects and
finishes; otherwise, for a last compare, resolve with undefined and finish;
else report no settlement.  The Bool is true when the engine settled. -/
def doCompare (f : CompareFn) (ty : CompareType) (e : Engine) : Engine × Bool :=
  let out := f e.state1 e.state2
  let e1 := { e with state1 := out.2.1, state2 := out.2.2 }
  match out.1 with
  | .error err => (doneE (rejectP err e1), true)
  | .ok v =>
      if isConcl v then (doneE (resolveP v e1), true)
      else if ty = .last then (doneE (resolveP .vUndefined e1), true)
      else (e1, false)

/-- Embedding of promise.checkpoint (main module lines 398-405): no-op once
settled, else a non-terminal doCompare with options.compare. -/
def checkpointOp (cfg : Config) (e : Engine) : Engine :=
  if e.isDone then e else (doCompare cfg.compare .checkpoint e).1

/-- Embedding of promise.end (main module lines 412-419): no-op once
settled, else a terminal doCompare with options.compare. -/
def endOp (cfg : Config) (e : Engine) : Engine :=
  if e.isDone then e else (doCompare cfg.compare .last e).1

/-- Append a recorded event to one stream's events list. -/
def pushEvent (w : StreamId) (name : String) (args : List JSVal)
    (e : Engine) : Engine :=
  let st := getState w e
  setState w { st with events := st.events ++ [⟨name, args⟩] } e

/-- Embedding of the per-event recorder listener (main module lines
432-441): push the event onto the state's events, then run the incremental
comparison when one is configured. -/
def recorderListener (cfg : Config) (w : StreamId) (name : String)
    (args : List JSVal) (e : Engine) : Engine :=
  let e1 := pushEvent w name args e
  match cfg.incremental with
  | some inc => (doCompare inc .incremental e1).1
  | none => e1

/-- Embedding of endListener (main module lines 460-493): ignore repeated
end signals and signals after settlement; otherwise mark the state ended,
bump the ended counter, run the incremental comparison when configured, and
when this was the second stream to end and nothing settled, schedule the
final compare. -/
def endListenerM (cfg : Config) (w : StreamId) (e : Engine) : Engine :=
  let st := getState w e
  if st.ended || e.isDone then e
  else
    let e1 := setState w { st with ended := true } e
    let e2 := { e1 with endedCount := e1.endedCount + 1 }
    let stepped :=
      match cfg.incremental with
      | some inc => doCompare inc .incremental e2
      | none => (e2, false)
    if stepped.2 then stepped.1
    else if stepped.1.endedCount = 2 then { stepped.1 with finalScheduled := true }
    else stepped.1

/-- Embedding of onStreamError (main module lines 359-363): reject with the
emitted error and finish immediately. -/
def onStreamErrorM (err : JSVal) (e : Engine) : Engine :=
  doneE (rejectP (.value err) e)

/-- Dispatch of one named event emission on one stream, as wired by
streamCompare (main module lines 421-511).  Listeners exist only until
done() removed them (guard on isDone).  In attachment order: the recorder
for names in options.events (skipped for the error event under
abortOnError), the end listener for names in options.endEvents (likewise
skipped), and the abortOnError error handler.  Listeners attached at
emission time all run; the end listener re-checks isDone itself. -/
def dispatchEvent (cfg : Config) (w : StreamId) (name : String)
    (args : List JSVal) (e : Engine) : Engine :=
  if e.isDone then e
  else
    let aborting := cfg.abortOnError && name == "error"
    let e1 :=
      if cfg.events.contains name && !aborting then
        recorderListener cfg w name args e
      else e
    let e2 :=
      if cfg.endEvents.contains name && !aborting then
        endListenerM cfg w e1
      else e1
    if aborting then onStreamErrorM (args.headD .vUndefined) e2 else e2

/-- The tag Object.prototype.toString.call yields for a value. -/
def jsTag : JSVal → String
  | .vUndefined => "[object Undefined]"
  | .vNull => "[object Null]"
  | .vBool _ => "[object Boolean]"
  | .vNum _ => "[object Number]"
  | .vStr _ => "[object String]"
  | .vBuf _ => "[object Uint8Array]"

/-- The tag of an accumulated data value. -/
def dataTag : JSData → String
  | .str _ => "[object String]"
  | .buf _ => "[object Uint8Array]"
  | .arr _ => "[object Array]"

/-- A payload handed to addData: a string chunk, a Buffer chunk, or any
other value (only legal in object mode). -/
inductive Payload where
  | pstr (s : String)
  | pbuf (b : List Nat)
  | pother (v : JSVal)
  deriving DecidableEq, Repr

/-- The JS length of a payload (code units for a string, bytes for a
Buffer; unused for other values). -/
def payloadLen : Payload → Nat
  | .pstr s => s.length
  | .pbuf b => b.length
  | .pother _ => 0

/-- The payload as the JS value stored in an object-mode data array. -/
def payloadVal : Payload → JSVal
  | .pstr s => .vStr s
  | .pbuf b => .vBuf b
  | .pother v => v

/-- Embedding of addData (main module lines 523-564) as a pure function of
the current data value and totalDataLen.  In object mode a falsy data value
(undefined or the empty string) is replaced by a fresh one-element array,
an array is pushed to, and any other accumulated value lacks push and
raises a TypeError.  In non-object mode a non-string non-Buffer payload
raises a TypeError; an absent accumulation adopts the payload; matching
types concatenate (reusing the nonempty side when the other is empty); and
mixed types raise a TypeError.  Successful calls grow totalDataLen by one
(object mode) or by the payload length. -/
def addData (objectMode : Bool) (d : Option JSData) (len : Nat)
    (p : Payload) : Except JSException (Option JSData × Nat) :=
  if objectMode then
    match d with
    | none => .ok (some (.arr [payloadVal p]), len + 1)
    | some (.str s) =>
        if s = "" then .ok (some (.arr [payloadVal p]), len + 1)
        else .error (.typeError "this.data.push is not a function")
    | some (.buf _) => .error (.typeError "this.data.push is not a function")
    | some (.arr l) => .ok (some (.arr (l ++ [payloadVal p])), len + 1)
  else
    match p with
    | .pother v =>
        .error (.typeError
          ("expected string or Buffer, got " ++ jsTag v ++ ".  Need objectMode?"))
    | .pstr s =>
        match d with
        | none => .ok (some (.str s), len + s.length)
        | some (.str t) =>
            .ok (some (.str (if t = "" then s else if s = "" then t else t ++ s)),
              len + s.length)
        | some other =>
            .error (.typeError
              ("read returned [object String], previously " ++ dataTag other
                ++ ".  Need objectMode?"))
    | .pbuf b =>
        match d with
        | none => .ok (some (.buf b), len + b.length)
        | some (.buf c) =>
            .ok (some (.buf (if c = [] then b else if b = [] then c else c ++ b)),
              len + b.length)
        | some other =>
            .error (.typeError
              ("read returned [object Uint8Array], previously " ++ dataTag other
                ++ ".  Need objectMode?"))

/-- Embedding of handleData (main module lines 569-584): try to accumulate
the payload; a thrown accumulation error rejects the promise and finishes;
otherwise run the incremental comparison when configured.  The source
function has no isDone guard of its own. -/
def handleDataM (cfg : Config) (w : StreamId) (p : Payload)
    (e : Engine) : Engine :=
  let st := getState w e
  match addData cfg.objectMode st.data st.totalDataLen p with
  | .error err => doneE (rejectP err e)
  | .ok dl =>
      let e1 := setState w { st with data := dl.1, totalDataLen := dl.2 } e
      match cfg.incremental with
      | some inc => (doCompare inc .incremental e1).1
      | none => e1

/-- The flowing-mode data listener (main module lines 637-641): attached
only under the flowing read policy, and never removed by done(). -/
def dispatchFlowingData (cfg : Config) (w : StreamId) (p : Payload)
    (e : Engine) : Engine :=
  if cfg.readPolicy = .flowing then handleDataM cfg w p e else e

/-- The stream-selection test of readNext (main module lines 593-603):
stream 1 when it has not ended and either stream 2 ended or stream 1 has
read no more data; else stream 2 when it has not ended; else no stream. -/
def selectStream (e : Engine) : Option StreamId :=
  if !e.state1.ended
      && (e.state2.ended || decide (e.state1.totalDataLen ≤ e.state2.totalDataLen)) then
    some .s1
  else if !e.state2.ended then some .s2
  else none

/-- Modelled from the spec (section 4.3, least policy): select the
not-yet-ended stream with the smaller totalDataLen, ties broken toward
stream 1; if only one stream has ended, the other; if both ended, none. -/
def selectSpec (e : Engine) : Option StreamId :=
  match e.state1.ended, e.state2.ended with
  | true, true => none
  | true, false => some .s2
  | false, true => some .s1
  | false, false =>
      if e.state1.totalDataLen ≤ e.state2.totalDataLen then some .s1
      else some .s2

/-- Result of a run of the readNext loop: final engine, the unread
remainder of each stream's pull queue, and the trace of selected streams. -/
structure ReadLoopOut where
  engine : Engine
  q1 : List Payload
  q2 : List Payload
  trace : List StreamId
  deriving DecidableEq, Repr

/-- Embedding of the readNext loop (main module lines 589-614) under the
least read policy, with each stream's pending pull results as a queue (an
empty queue is a null read: the loop suspends on the readable event and
returns).  Fuel bounds the iteration count. -/
def readNextLoop (cfg : Config) : Nat → Engine → List Payload → List Payload →
    ReadLoopOut
  | 0, e, q1, q2 => ⟨e, q1, q2, []⟩
  | fuel + 1, e, q1, q2 =>
      if e.isDone then ⟨e, q1, q2, []⟩
      else
        match selectStream e with
        | none => ⟨e, q1, q2, []⟩
        | some .s1 =>
            match q1 with
            | [] => ⟨e, q1, q2, [.s1]⟩
            | p :: rest =>
                let e1 := handleDataM cfg .s1 p e
                let out := readNextLoop cfg fuel e1 rest q2
                ⟨out.engine, out.q1, out.q2, .s1 :: out.trace⟩
        | some .s2 =>
            match q2 with
            | [] => ⟨e, q1, q2, [.s2]⟩
            | p :: rest =>
                let e1 := handleDataM cfg .s2 p e
                let out := readNextLoop cfg fuel e1 q1 rest
                ⟨out.engine, out.q1, out.q2, .s2 :: out.trace⟩

/-- A data comparison over Nat lists that always reports inconclusive. -/
def cmpNullList : Option (List Nat) → Option (List Nat) →
    Except JSException JSVal :=
  fun _ _ => .ok .vNull

/-- A data comparison that always reports inconclusive (returns null). -/
def cdNull : Option JSData → Option JSData → Except JSException JSVal :=
  fun _ _ => .ok .vNull

/-- An events comparison that always reports inconclusive (returns null). -/
def ceNull : Option (List EventRec) → Option (List EventRec) →
    Except JSException JSVal :=
  fun _ _ => .ok .vNull

/-- A data comparison that always produces the conclusive verdict
the string diff. -/
def cdDiff : Option JSData → Option JSData → Except JSException JSVal :=
  fun _ _ => .ok (.vStr "diff")

/-- An events comparison that always throws the string boom. -/
def ceBoom : Option (List EventRec) → Option (List EventRec) →
    Except JSException JSVal :=
  fun _ _ => .error (.value (.vStr "boom"))

/-- A stream state with one object-mode datum and one recorded event. -/
def stA : MStreamState :=
  { ended := false, events := [⟨"e", []⟩], data := some (.arr [.vNum 1]),
    totalDataLen := 1 }

/-- A second stream state with one object-mode datum and one event. -/
def stB : MStreamState :=
  { ended := false, events := [⟨"f", []⟩], data := some (.arr [.vNum 2]),
    totalDataLen := 1 }

/-- A compare function that always reports inconclusive and leaves the
states untouched. -/
def cmpNullFn : CompareFn := fun a b => (.ok .vNull, a, b)

/-- A compare function that always throws the string late. -/
def cmpThrowFn : CompareFn := fun a b => (.error (.value (.vStr "late")), a, b)

/-- A configuration with the default option values and an inconclusive
compare function. -/
def cfgBasic : Config :=
  { abortOnError := false
    objectMode := false
    events := ["close", "end", "error"]
    endEvents := ["end", "error"]
    readPolicy := .least
    compare := cmpNullFn
    incremental := none }

/-- The default configuration with abortOnError switched on. -/
def cfgAbort : Config := { cfgBasic with abortOnError := true }

/-- The default configuration under the flowing read policy, with a
throwing incremental comparison. -/
def cfgFlow : Config :=
  { cfgBasic with readPolicy := .flowing, incremental := some cmpThrowFn }

/-- A caller control operation on the returned promise. -/
inductive CtlCall where
  | checkpointCall
  | endCall
  deriving DecidableEq, Repr

/-- Run one control operation. -/
def applyCtl (cfg : Config) : CtlCall → Engine → Engine
  | .checkpointCall, e => checkpointOp cfg e
  | .endCall, e => endOp cfg e

/-- Run a sequence of control operations in order. -/
def applyCtlList (cfg : Config) : List CtlCall → Engine → Engine
  | [], e => e
  | c :: rest, e => applyCtlList cfg rest (applyCtl cfg c e)

/-- A concrete settled engine: the initial engine after end(). -/
def settledE : Engine := endOp cfgBasic initialEngine

def tearInv (e : Engine) : Prop :=
  e.teardownCount = if e.isDone then 1 else 0

/-- The initial engine after end() under the flowing configuration: a
concrete settled engine whose data listeners were never removed. -/
def settledFlowE : Engine := endOp cfgFlow initialEngine

/-- A compare function that always returns the JS value false. -/
def cmpFalseFn : CompareFn := fun a b => (.ok (.vBool false), a, b)

/-- A data comparison over Nat lists that always returns the conclusive
string ne. -/
def cmpDiffList : Option (List Nat) → Option (List Nat) →
    Except JSException JSVal :=
  fun _ _ => .ok (.vStr "ne")

/-- An engine that already accumulated string data on stream 1. -/
def eStr : Engine :=
  { initialEngine with
    state1 := { initialState with data := some (.str "a"), totalDataLen := 1 } }

/-! ### Helper lemmas -/

theorem optLen_pos_evidence {σ : Type} (len : σ → Nat) (s : Option σ) (b : Bool)
    (h : 0 < optLen len s) : hasEvidence len s b = true := by
  cases s with
  | none => simp [optLen] at h
  | some v =>
      simp only [optLen] at h
      simp only [hasEvidence, Bool.or_eq_true, decide_eq_true_eq]
      exact Or.inl (Nat.pos_iff_ne_zero.mp h)

theorem optLen_map {σ : Type} (len : σ → Nat) (dp : Nat → σ → σ)
    (hdp : ∀ n v, len (dp n v) = len v - n) (m : Nat) (s : Option σ) :
    optLen len (s.map (dp m)) = optLen len s - m := by
  cases s <;> simp [optLen, hdp]

theorem applyTrim_ok {σ : Type} (dp : Nat → σ → σ) (m : Nat) (s1 s2 : Option σ)
    (out : Except JSException JSVal) (r : JSVal) (t1 t2 : Option σ)
    (h : applyTrim dp m s1 s2 out = (.ok r, t1, t2)) :
    out = .ok r ∧
      ((0 < m ∧ isConcl r = false ∧ t1 = s1.map (dp m) ∧ t2 = s2.map (dp m)) ∨
       (¬(0 < m ∧ isConcl r = false) ∧ t1 = s1 ∧ t2 = s2)) := by
  cases out with
  | error e => simp [applyTrim] at h
  | ok r0 =>
      simp only [applyTrim] at h
      by_cases hc : (0 < m && !isConcl r0) = true
      · rw [if_pos hc] at h
        simp only [Prod.mk.injEq, Except.ok.injEq] at h
        obtain ⟨h1, h2, h3⟩ := h
        simp only [Bool.and_eq_true, decide_eq_true_eq, Bool.not_eq_true'] at hc
        subst h1
        exact ⟨rfl, Or.inl ⟨hc.1, hc.2, h2.symm, h3.symm⟩⟩
      · rw [if_neg hc] at h
        simp only [Prod.mk.injEq, Except.ok.injEq] at h
        obtain ⟨h1, h2, h3⟩ := h
        simp only [Bool.and_eq_true, decide_eq_true_eq, Bool.not_eq_true',
          not_and] at hc
        subst h1
        refine ⟨rfl, Or.inr ⟨?_, h2.symm, h3.symm⟩⟩
        rintro ⟨hm, hr⟩
        exact hc hm hr

theorem applyTrim_error {σ : Type} (dp : Nat → σ → σ) (m : Nat)
    (s1 s2 : Option σ) (out : Except JSException JSVal) (err : JSException)
    (t1 t2 : Option σ)
    (h : applyTrim dp m s1 s2 out = (.error err, t1, t2)) :
    out = .error err ∧ t1 = s1 ∧ t2 = s2 := by
  cases out with
  | error e =>
      simp only [applyTrim] at h
      simp only [Prod.mk.injEq, Except.error.injEq] at h
      obtain ⟨h1, h2, h3⟩ := h
      subst h1
      exact ⟨rfl, h2.symm, h3.symm⟩
  | ok r0 =>
      simp only [applyTrim] at h
      split at h <;> simp at h

/-! ### Concrete comparison functions and states used in witnesses and
counterexamples -/

/-! ### C1: trimming law of the incremental reducer -/

/-- C1, counterexample to the claim as stated: on an inconclusive pass with
usable length n = 1 over sequences of lengths 1 and 1, both sequences are
trimmed to length 0, so the total available to the next pass is 0, which is
the previous total minus 2n, not the previous total minus n as the claim
says. -/
theorem claim_C1_cex :
    incrementalProp List.length List.take List.drop false false
      (some [1]) (some [2]) cmpNullList = (.ok .vNull, some [], some []) ∧
    ¬ (optLen List.length (some ([] : List Nat)) +
        optLen List.length (some ([] : List Nat)) =
       optLen List.length (some [1]) + optLen List.length (some [2]) -
        min (optLen List.length (some [1])) (optLen List.length (some [2]))) := by
  decide

/-- C1 (amended): for every incremental pass over a sequence property, if
the comparison function returns an empty (inconclusive) verdict and the
usable length n (the minimum of the two sequence lengths) is positive, both
states' sequences are each shortened by exactly n elements, so each state's
available length drops by n and the combined total drops by 2n; if the
function returns a non-empty verdict or throws, no trimming occurs. -/
theorem claim_C1_trimming {σ : Type} (len : σ → Nat) (tk dp : Nat → σ → σ)
    (hdp : ∀ n v, len (dp n v) = len v - n)
    (ended1 ended2 : Bool) (s1 s2 : Option σ)
    (cmp : Option σ → Option σ → Except JSException JSVal) :
    (∀ r t1 t2,
      incrementalProp len tk dp ended1 ended2 s1 s2 cmp = (.ok r, t1, t2) →
        (isConcl r = false → 0 < min (optLen len s1) (optLen len s2) →
          optLen len t1 =
            optLen len s1 - min (optLen len s1) (optLen len s2) ∧
          optLen len t2 =
            optLen len s2 - min (optLen len s1) (optLen len s2) ∧
          optLen len t1 + optLen len t2 =
            optLen len s1 + optLen len s2 -
              2 * min (optLen len s1) (optLen len s2)) ∧
        (isConcl r = true → t1 = s1 ∧ t2 = s2)) ∧
    (∀ err t1 t2,
      incrementalProp len tk dp ended1 ended2 s1 s2 cmp = (.error err, t1, t2) →
        t1 = s1 ∧ t2 = s2) := by
  by_cases hg : (hasEvidence len s1 ended1 && hasEvidence len s2 ended2) = true
  · constructor
    · intro r t1 t2 hrun
      simp only [incrementalProp] at hrun
      rw [if_pos hg] at hrun
      obtain ⟨hout, hcase⟩ := applyTrim_ok _ _ _ _ _ _ _ _ hrun
      constructor
      · intro hr hm
        rcases hcase with ⟨hm0, hr0, ht1, ht2⟩ | ⟨hn, ht1, ht2⟩
        · subst ht1
          subst ht2
          refine ⟨optLen_map len dp hdp _ s1, optLen_map len dp hdp _ s2, ?_⟩
          have h1 := min_le_left (optLen len s1) (optLen len s2)
          have h2 := min_le_right (optLen len s1) (optLen len s2)
          rw [optLen_map len dp hdp, optLen_map len dp hdp]
          omega
        · exact absurd ⟨hm, hr⟩ hn
      · intro hr
        rcases hcase with ⟨hm0, hr0, ht1, ht2⟩ | ⟨hn, ht1, ht2⟩
        · simp [hr0] at hr
        · exact ⟨ht1, ht2⟩
    · intro err t1 t2 hrun
      simp only [incrementalProp] at hrun
      rw [if_pos hg] at hrun
      obtain ⟨hout, ht1, ht2⟩ := applyTrim_error _ _ _ _ _ _ _ _ hrun
      exact ⟨ht1, ht2⟩
  · constructor
    · intro r t1 t2 hrun
      simp only [incrementalProp] at hrun
      rw [if_neg hg] at hrun
      simp only [Prod.mk.injEq, Except.ok.injEq] at hrun
      obtain ⟨h1, h2, h3⟩ := hrun
      constructor
      · intro hr hm
        exfalso
        apply hg
        have hp1 : 0 < optLen len s1 := lt_of_lt_of_le hm (min_le_left _ _)
        have hp2 : 0 < optLen len s2 := lt_of_lt_of_le hm (min_le_right _ _)
        rw [optLen_pos_evidence len s1 ended1 hp1,
          optLen_pos_evidence len s2 ended2 hp2]
        rfl
      · intro _
        exact ⟨h2.symm, h3.symm⟩
    · intro err t1 t2 hrun
      simp only [incrementalProp] at hrun
      rw [if_neg hg] at hrun
      simp at hrun

/-- C1 witness: the amended trimming law evaluated on a concrete pass
(lists of lengths 2 and 1, inconclusive comparison, usable length 1). -/
theorem claim_C1_witness :
    optLen List.length (some ([2] : List Nat)) =
      optLen List.length (some [1, 2]) -
        min (optLen List.length (some [1, 2])) (optLen List.length (some [3])) ∧
    optLen List.length (some ([] : List Nat)) =
      optLen List.length (some [3]) -
        min (optLen List.length (some [1, 2])) (optLen List.length (some [3])) ∧
    optLen List.length (some ([2] : List Nat)) +
        optLen List.length (some ([] : List Nat)) =
      optLen List.length (some [1, 2]) + optLen List.length (some [3]) -
        2 * min (optLen List.length (some [1, 2]))
            (optLen List.length (some [3])) :=
  ((claim_C1_trimming List.length List.take List.drop
      (fun n v => List.length_drop n v) false false (some [1, 2]) (some [3])
      cmpNullList).1 .vNull (some [2]) (some []) (by decide)).1
    (by decide) (by decide)

/-! ### C2: composition of makeIncremental -/

/-- C2, counterexample to the claim as stated: with a data comparison that
produces the conclusive verdict diff and an events comparison that throws
boom, the composed incremental function still runs the events comparison
and propagates its thrown value, so it does not return the data verdict
that was produced. -/
theorem claim_C2_cex :
    (dataPass (some cdDiff) stA stB).1 = .ok (.vStr "diff") ∧
    (makeIncrementalFn (some cdDiff) (some ceBoom) stA stB).1 =
      .error (.value (.vStr "boom")) ∧
    (makeIncrementalFn (some cdDiff) (some ceBoom) stA stB).1 ≠
      .ok (.vStr "diff") := by
  refine ⟨by decide, by decide, ?_⟩
  decide

/-- C2 (amended): the composed incremental function runs the data pass
first; a thrown value there propagates and the events comparison is never
invoked (the result does not depend on it); otherwise the events pass also
runs, unconditionally, whatever the data verdict: a thrown value from it
propagates, and when neither pass throws the returned verdict is the data
verdict if conclusive, else the events verdict. -/
theorem claim_C2_compose
    (cd : Option (Option JSData → Option JSData → Except JSException JSVal))
    (ce : Option (Option (List EventRec) → Option (List EventRec) →
      Except JSException JSVal))
    (st1 st2 : MStreamState) :
    (∀ err u1 u2, dataPass cd st1 st2 = (.error err, u1, u2) →
      ∀ ce2, makeIncrementalFn cd ce2 st1 st2 = (.error err, u1, u2)) ∧
    (∀ dr u1 u2, dataPass cd st1 st2 = (.ok dr, u1, u2) →
      (∀ err w1 w2, eventsPass ce u1 u2 = (.error err, w1, w2) →
        makeIncrementalFn cd ce st1 st2 = (.error err, w1, w2)) ∧
      (∀ er w1 w2, eventsPass ce u1 u2 = (.ok er, w1, w2) →
        makeIncrementalFn cd ce st1 st2 =
          (.ok (if isConcl dr then dr else er), w1, w2))) := by
  constructor
  · intro err u1 u2 hd ce2
    simp only [makeIncrementalFn, hd]
  · intro dr u1 u2 hd
    constructor
    · intro err w1 w2 he
      simp only [makeIncrementalFn, hd, he]
    · intro er w1 w2 he
      simp only [makeIncrementalFn, hd, he]

/-- C2 witness: the amended composition law evaluated at concrete
inconclusive data and events comparisons. -/
theorem claim_C2_witness :
    makeIncrementalFn (some cdNull) (some ceNull) stA stB =
      (.ok (if isConcl .vNull then .vNull else .vNull),
       { ended := false, events := [], data := some (.arr []),
         totalDataLen := 1 },
       { ended := false, events := [], data := some (.arr []),
         totalDataLen := 1 }) :=
  ((claim_C2_compose (some cdNull) (some ceNull) stA stB).2 .vNull
      { ended := false, events := [⟨"e", []⟩], data := some (.arr []),
        totalDataLen := 1 }
      { ended := false, events := [⟨"f", []⟩], data := some (.arr []),
        totalDataLen := 1 }
      (by decide)).2 .vNull
    { ended := false, events := [], data := some (.arr []),
      totalDataLen := 1 }
    { ended := false, events := [], data := some (.arr []),
      totalDataLen := 1 }
    (by decide)

/-! ### Concrete engine configurations -/

/-! ### C3: abortOnError routes the error event to immediate abort -/

/-- C3: when abortOnError is configured and the comparison has not settled,
an error event from either stream immediately rejects the deferred result
with that error and finishes: the event recorder does not record it, the
ended flags and ended counter are untouched (normal end tracking is
bypassed), and the listeners are torn down. -/
theorem claim_C3_abortOnError (cfg : Config) (w : StreamId) (errv : JSVal)
    (e : Engine) (hA : cfg.abortOnError = true) (hD : e.isDone = false)
    (hP : e.result = none) :
    dispatchEvent cfg w "error" [errv] e =
      { e with
        isDone := true
        result := some (.error (.value errv))
        teardownCount := e.teardownCount + 1
        finalScheduled := false } := by
  simp [dispatchEvent, hD, hA, onStreamErrorM, doneE, rejectP, hP]

/-- C3 witness: the abort behaviour evaluated at a concrete configuration
and the initial engine state. -/
theorem claim_C3_witness :
    dispatchEvent cfgAbort .s1 "error" [.vStr "E"] initialEngine =
      { initialEngine with
        isDone := true
        result := some (.error (.value (.vStr "E")))
        teardownCount := 1
        finalScheduled := false } :=
  claim_C3_abortOnError cfgAbort .s1 (.vStr "E") initialEngine rfl rfl rfl

/-! ### C4: end() always settles -/

/-- C4: for an unsettled comparison, end() runs the terminal compare
function and always settles the deferred result: a conclusive return value
fulfills with that value, a thrown value rejects with it, and an
inconclusive result fulfills with the empty (undefined) success; end()
never leaves the comparison running. -/
theorem claim_C4_end_settles (cfg : Config) (e : Engine)
    (out : Except JSException JSVal) (s1 s2 : MStreamState)
    (hD : e.isDone = false) (hP : e.result = none)
    (hc : cfg.compare e.state1 e.state2 = (out, s1, s2)) :
    (endOp cfg e).isDone = true ∧
    (endOp cfg e).result =
      some (match out with
            | .error err => Except.error err
            | .ok v => if isConcl v then Except.ok v
                       else Except.ok JSVal.vUndefined) := by
  cases out with
  | error err =>
      simp [endOp, hD, doCompare, hc, doneE, rejectP, hP]
  | ok v =>
      by_cases hv : isConcl v = true
      · simp [endOp, hD, doCompare, hc, hv, doneE, resolveP, hP]
      · have hv2 : isConcl v = false := by
          cases h : isConcl v
          · rfl
          · exact absurd h hv
        simp [endOp, hD, doCompare, hc, hv2, doneE, resolveP, hP]

/-- C4 witness: end() on the initial engine with the inconclusive default
compare settles with the empty success. -/
theorem claim_C4_witness :
    (endOp cfgBasic initialEngine).isDone = true ∧
    (endOp cfgBasic initialEngine).result = some (.ok .vUndefined) := by
  have h := claim_C4_end_settles cfgBasic initialEngine (.ok .vNull)
    initialState initialState rfl rfl rfl
  exact ⟨h.1, h.2⟩

/-! ### C5: checkpoint() and end() are no-ops after settlement -/

/-- C5: once the comparison has settled, every subsequent checkpoint() or
end() call leaves the engine exactly unchanged -- no comparison function is
invoked (the outcome is independent of the configured compare function), no
StreamState is mutated, nothing settles again -- for any number of repeated
calls in any order. -/
theorem claim_C5_idempotent (e : Engine) (hD : e.isDone = true) :
    (∀ cfg, checkpointOp cfg e = e) ∧
    (∀ cfg, endOp cfg e = e) ∧
    (∀ cfg calls, applyCtlList cfg calls e = e) := by
  refine ⟨fun cfg => by simp [checkpointOp, hD],
    fun cfg => by simp [endOp, hD], fun cfg calls => ?_⟩
  induction calls with
  | nil => rfl
  | cons c rest ih =>
      cases c <;>
        simp [applyCtlList, applyCtl, checkpointOp, endOp, hD, ih]

/-- C5 witness: repeated control calls on a concrete settled engine. -/
theorem claim_C5_witness :
    checkpointOp cfgBasic settledE = settledE ∧
    applyCtlList cfgBasic
      [.endCall, .checkpointCall, .checkpointCall, .endCall] settledE =
      settledE :=
  ⟨(claim_C5_idempotent settledE rfl).1 cfgBasic,
   (claim_C5_idempotent settledE rfl).2.2 cfgBasic _⟩

/-! ### C6: least read policy selects the least-consumed live stream -/

/-- C6: under the least read policy, the scheduler's selection rule is
exactly the spec's rule (selectSpec, modelled from the spec's words): the
not-yet-ended stream with the smaller totalDataLen, ties toward stream 1;
the surviving stream when only one has ended; nothing when both ended, in
which case the read loop issues no further reads; and the first selection
of any loop run follows the same rule. -/
theorem claim_C6_least_select (cfg : Config) (e : Engine)
    (q1 q2 : List Payload) (fuel : Nat) (hD : e.isDone = false) :
    selectStream e = selectSpec e ∧
    (e.state1.ended = true → e.state2.ended = true →
      ∀ f2, readNextLoop cfg f2 e q1 q2 = ⟨e, q1, q2, []⟩) ∧
    (readNextLoop cfg (fuel + 1) e q1 q2).trace.head? = selectSpec e := by
  have hss : selectStream e = selectSpec e := by
    cases h1 : e.state1.ended <;> cases h2 : e.state2.ended <;>
      by_cases hab : e.state1.totalDataLen ≤ e.state2.totalDataLen <;>
        simp [selectStream, selectSpec, h1, h2, hab]
  refine ⟨hss, ?_, ?_⟩
  · intro he1 he2 f2
    have hsel : selectStream e = none := by
      simp [selectStream, he1, he2]
    cases f2 with
    | zero => rfl
    | succ n => simp [readNextLoop, hD, hsel]
  · rw [← hss]
    cases hsel : selectStream e with
    | none => simp [readNextLoop, hD, hsel]
    | some sid =>
        cases sid with
        | s1 =>
            cases q1 with
            | nil => simp [readNextLoop, hD, hsel]
            | cons p rest => simp [readNextLoop, hD, hsel]
        | s2 =>
            cases q2 with
            | nil => simp [readNextLoop, hD, hsel]
            | cons p rest => simp [readNextLoop, hD, hsel]

/-- C6 witness: the selection rule evaluated on the initial engine (both
streams unended with equal totalDataLen: the tie goes to stream 1). -/
theorem claim_C6_witness :
    selectStream initialEngine = selectSpec initialEngine ∧
    (readNextLoop cfgBasic 1 initialEngine [] []).trace.head? =
      selectSpec initialEngine :=
  ⟨(claim_C6_least_select cfgBasic initialEngine [] [] 0 rfl).1,
   (claim_C6_least_select cfgBasic initialEngine [] [] 0 rfl).2.2⟩

/-! ### C7: the data accumulator's typing and length contract -/

/-- C7: appending a payload fails with a TypeError-class error in
non-object mode when the payload is neither a string nor a Buffer, or when
its type differs from the already-accumulated data; in object mode every
payload is appended as one array element (from the reachable accumulator
shapes: absent or an array); and every successful append grows
totalDataLen by 1 in object mode and by the payload's length otherwise. -/
theorem claim_C7_addData (om : Bool) (d : Option JSData) (len : Nat)
    (p : Payload) :
    (om = false → ∀ v, p = .pother v →
      ∃ m, addData om d len p = .error (.typeError m)) ∧
    (om = false → ∀ s b,
      (d = some (.str s) ∧ p = .pbuf b) ∨ (d = some (.buf b) ∧ p = .pstr s) →
      ∃ m, addData om d len p = .error (.typeError m)) ∧
    (om = true →
      (d = none →
        addData om d len p = .ok (some (.arr [payloadVal p]), len + 1)) ∧
      (∀ l, d = some (.arr l) →
        addData om d len p = .ok (some (.arr (l ++ [payloadVal p])), len + 1))) ∧
    (∀ d2 len2, addData om d len p = .ok (d2, len2) →
      len2 = len + (if om then 1 else payloadLen p)) := by
  refine ⟨?_, ?_, ?_, ?_⟩
  · rintro rfl v rfl
    exact ⟨_, rfl⟩
  · rintro rfl s b (⟨rfl, rfl⟩ | ⟨rfl, rfl⟩) <;> exact ⟨_, rfl⟩
  · rintro rfl
    exact ⟨fun h => by subst h; rfl, fun l h => by subst h; rfl⟩
  · intro d2 len2 h
    cases om with
    | false =>
        cases p with
        | pother v => simp [addData] at h
        | pstr s =>
            cases d with
            | none =>
                simp only [addData, Except.ok.injEq, Prod.mk.injEq] at h
                obtain ⟨h1, h2⟩ := h
                simp only [payloadLen]
                simp
            | some jd =>
                cases jd with
                | str t =>
                    simp only [addData, Except.ok.injEq, Prod.mk.injEq] at h
                    obtain ⟨h1, h2⟩ := h
                    simp only [payloadLen]
                    simp
                | buf c => simp [addData] at h
                | arr l => simp [addData] at h
        | pbuf b =>
            cases d with
            | none =>
                simp only [addData, Except.ok.injEq, Prod.mk.injEq] at h
                obtain ⟨h1, h2⟩ := h
                simp only [payloadLen]
                simp
            | some jd =>
                cases jd with
                | str t => simp [addData] at h
                | buf c =>
                    simp only [addData, Except.ok.injEq, Prod.mk.injEq] at h
                    obtain ⟨h1, h2⟩ := h
                    simp only [payloadLen]
                    simp
                | arr l => simp [addData] at h
    | true =>
        cases d with
        | none =>
            simp only [addData, Except.ok.injEq, Prod.mk.injEq] at h
            obtain ⟨h1, h2⟩ := h
            simp
        | some jd =>
            cases jd with
            | str t =>
                by_cases ht : t = ""
                · simp [addData, ht] at h
                  obtain ⟨h1, h2⟩ := h
                  simp only [if_pos rfl, if_true]
                  omega
                · simp [addData, ht] at h
            | buf c => simp [addData] at h
            | arr l =>
                simp only [addData, Except.ok.injEq, Prod.mk.injEq] at h
                obtain ⟨h1, h2⟩ := h
                simp

/-- C7 witness: the accumulator contract evaluated at concrete payloads --
a Buffer chunk after string data (TypeError), an object-mode append, and a
non-string non-Buffer payload in non-object mode (TypeError). -/
theorem claim_C7_witness :
    (∃ m, addData false (some (.str "ab")) 2 (.pbuf [1]) =
      .error (.typeError m)) ∧
    addData true none 0 (.pstr "x") =
      .ok (some (.arr [payloadVal (.pstr "x")]), 0 + 1) ∧
    (∃ m, addData false none 0 (.pother .vNull) = .error (.typeError m)) :=
  ⟨(claim_C7_addData false (some (.str "ab")) 2 (.pbuf [1])).2.1 rfl "ab" [1]
      (Or.inl ⟨rfl, rfl⟩),
   ((claim_C7_addData true none 0 (.pstr "x")).2.2.1 rfl).1 rfl,
   (claim_C7_addData false none 0 (.pother .vNull)).1 rfl .vNull rfl⟩

/-! ### C8: settlement teardown -/

/-- The teardown invariant: done() has run exactly once when the engine is
settled and never before. -/
theorem setState_teardownCount (w : StreamId) (st : MStreamState)
    (e : Engine) : (setState w st e).teardownCount = e.teardownCount := by
  cases w <;> rfl

theorem setState_isDone (w : StreamId) (st : MStreamState) (e : Engine) :
    (setState w st e).isDone = e.isDone := by
  cases w <;> rfl

theorem tear_doneE_rejectP (err : JSException) (e : Engine)
    (h : e.teardownCount = 0) : tearInv (doneE (rejectP err e)) := by
  unfold tearInv doneE rejectP
  split <;> simp [h]

theorem tear_doneE_resolveP (v : JSVal) (e : Engine)
    (h : e.teardownCount = 0) : tearInv (doneE (resolveP v e)) := by
  unfold tearInv doneE resolveP
  split <;> simp [h]
theorem doCompare_inv (f : CompareFn) (ty : CompareType) (e : Engine)
    (hD : e.isDone = false) (h0 : e.teardownCount = 0) :
    tearInv (doCompare f ty e).1 := by
  unfold doCompare
  rcases hfe : f e.state1 e.state2 with ⟨o, s1, s2⟩
  cases o with
  | error err => exact tear_doneE_rejectP err _ h0
  | ok v =>
      dsimp only
      by_cases hv : isConcl v = true
      · rw [if_pos hv]
        exact tear_doneE_resolveP v _ h0
      · rw [if_neg hv]
        by_cases hty : ty = .last
        · rw [if_pos hty]
          exact tear_doneE_resolveP _ _ h0
        · rw [if_neg hty]
          simpa [tearInv, hD] using h0

theorem tearInv_count_zero (e : Engine) (hD : e.isDone = false)
    (hI : tearInv e) : e.teardownCount = 0 := by
  simpa [tearInv, hD] using hI

theorem bool_eq_false_of_ne_true {b : Bool} (h : ¬ b = true) : b = false := by
  cases b
  · rfl
  · exact absurd rfl h

theorem recorder_inv (cfg : Config) (w : StreamId) (name : String)
    (args : List JSVal) (e : Engine) (hD : e.isDone = false)
    (hI : tearInv e) : tearInv (recorderListener cfg w name args e) := by
  have h0 := tearInv_count_zero e hD hI
  unfold recorderListener
  rcases hinc : cfg.incremental with _ | inc
  · simpa [tearInv, pushEvent, setState_teardownCount, setState_isDone, hD]
      using h0
  · exact doCompare_inv inc .incremental _
      (by simp [pushEvent, setState_isDone, hD])
      (by simp [pushEvent, setState_teardownCount, h0])

theorem tearInv_finalScheduled (e : Engine) (b : Bool) (hI : tearInv e) :
    tearInv { e with finalScheduled := b } := by
  simpa [tearInv] using hI

theorem endListener_inv (cfg : Config) (w : StreamId) (e : Engine)
    (hI : tearInv e) : tearInv (endListenerM cfg w e) := by
  unfold endListenerM
  dsimp only
  by_cases hg : ((getState w e).ended || e.isDone) = true
  · rw [if_pos hg]
    exact hI
  · rw [if_neg hg]
    have hD : e.isDone = false := by
      rcases h2 : e.isDone
      · rfl
      · rw [h2] at hg
        simp at hg
    have h0 := tearInv_count_zero e hD hI
    rcases hinc : cfg.incremental with _ | inc
    · dsimp only
      rw [if_neg Bool.false_ne_true]
      have he2 : tearInv
          { setState w { getState w e with ended := true } e with
            endedCount :=
              (setState w { getState w e with ended := true } e).endedCount
                + 1 } := by
        simp [tearInv, setState_teardownCount, setState_isDone, hD, h0]
      split
      · exact tearInv_finalScheduled _ true he2
      · exact he2
    · dsimp only
      have hstep : tearInv (doCompare inc .incremental
          { setState w { getState w e with ended := true } e with
            endedCount :=
              (setState w { getState w e with ended := true } e).endedCount
                + 1 }).1 :=
        doCompare_inv inc .incremental _
          (by simp [setState_isDone, hD])
          (by simp [setState_teardownCount, h0])
      split
      · exact hstep
      · split
        · exact tearInv_finalScheduled _ true hstep
        · exact hstep

theorem dispatchEvent_done (cfg : Config) (w : StreamId) (name : String)
    (args : List JSVal) (e : Engine) (hD : e.isDone = true) :
    dispatchEvent cfg w name args e = e := by
  simp [dispatchEvent, hD]

theorem dispatchEvent_abort (cfg : Config) (w : StreamId) (name : String)
    (args : List JSVal) (e : Engine) (hD : e.isDone = false)
    (hab : (cfg.abortOnError && name == "error") = true) :
    dispatchEvent cfg w name args e =
      onStreamErrorM (args.headD .vUndefined) e := by
  simp [dispatchEvent, hD, hab]

theorem dispatchEvent_noabort (cfg : Config) (w : StreamId) (name : String)
    (args : List JSVal) (e : Engine) (hD : e.isDone = false)
    (hab : (cfg.abortOnError && name == "error") = false) :
    dispatchEvent cfg w name args e =
      (if cfg.endEvents.contains name then
        endListenerM cfg w
          (if cfg.events.contains name then
            recorderListener cfg w name args e
          else e)
      else
        (if cfg.events.contains name then
          recorderListener cfg w name args e
        else e)) := by
  simp [dispatchEvent, hD, hab]

theorem dispatch_inv (cfg : Config) (w : StreamId) (name : String)
    (args : List JSVal) (e : Engine) (hI : tearInv e) :
    tearInv (dispatchEvent cfg w name args e) := by
  by_cases hD : e.isDone = true
  · rw [dispatchEvent_done cfg w name args e hD]
    exact hI
  · have hD2 : e.isDone = false := bool_eq_false_of_ne_true hD
    have h0 := tearInv_count_zero e hD2 hI
    by_cases hab : (cfg.abortOnError && name == "error") = true
    · rw [dispatchEvent_abort cfg w name args e hD2 hab]
      exact tear_doneE_rejectP _ _ h0
    · rw [dispatchEvent_noabort cfg w name args e hD2
        (bool_eq_false_of_ne_true hab)]
      have he1 : tearInv
          (if cfg.events.contains name then
            recorderListener cfg w name args e
          else e) := by
        split
        · exact recorder_inv cfg w name args e hD2 hI
        · exact hI
      split
      · exact endListener_inv cfg w _ he1
      · exact he1

theorem handleData_inv (cfg : Config) (w : StreamId) (p : Payload)
    (e : Engine) (hD : e.isDone = false) (hI : tearInv e) :
    tearInv (handleDataM cfg w p e) := by
  have h0 := tearInv_count_zero e hD hI
  unfold handleDataM
  dsimp only
  rcases hadd : addData cfg.objectMode (getState w e).data
      (getState w e).totalDataLen p with err | dl
  · exact tear_doneE_rejectP _ _ h0
  · dsimp only
    rcases hinc : cfg.incremental with _ | inc
    · simpa [tearInv, setState_teardownCount, setState_isDone, hD] using h0
    · exact doCompare_inv inc .incremental _
        (by simp [setState_isDone, hD])
        (by simp [setState_teardownCount, h0])

theorem readLoop_done (cfg : Config) (fuel : Nat) (e : Engine)
    (q1 q2 : List Payload) (hD : e.isDone = true) :
    readNextLoop cfg fuel e q1 q2 = ⟨e, q1, q2, []⟩ := by
  cases fuel with
  | zero => rfl
  | succ n => simp [readNextLoop, hD]

theorem readLoop_inv (cfg : Config) (fuel : Nat) :
    ∀ (e : Engine) (q1 q2 : List Payload), tearInv e →
      tearInv (readNextLoop cfg fuel e q1 q2).engine := by
  induction fuel with
  | zero =>
      intro e q1 q2 hI
      exact hI
  | succ n ih =>
      intro e q1 q2 hI
      by_cases hD : e.isDone = true
      · rw [readLoop_done cfg (n + 1) e q1 q2 hD]
        exact hI
      · have hD2 : e.isDone = false := bool_eq_false_of_ne_true hD
        cases hsel : selectStream e with
        | none =>
            have hid : readNextLoop cfg (n + 1) e q1 q2 = ⟨e, q1, q2, []⟩ := by
              simp [readNextLoop, hD2, hsel]
            rw [hid]
            exact hI
        | some sid =>
            cases sid with
            | s1 =>
                cases q1 with
                | nil =>
                    have hid : readNextLoop cfg (n + 1) e [] q2 =
                        ⟨e, [], q2, [.s1]⟩ := by
                      simp [readNextLoop, hD2, hsel]
                    rw [hid]
                    exact hI
                | cons p rest =>
                    have hid : (readNextLoop cfg (n + 1) e (p :: rest) q2).engine
                        = (readNextLoop cfg n (handleDataM cfg .s1 p e) rest
                            q2).engine := by
                      simp [readNextLoop, hD2, hsel]
                    rw [hid]
                    exact ih _ _ _ (handleData_inv cfg .s1 p e hD2 hI)
            | s2 =>
                cases q2 with
                | nil =>
                    have hid : readNextLoop cfg (n + 1) e q1 [] =
                        ⟨e, q1, [], [.s2]⟩ := by
                      simp [readNextLoop, hD2, hsel]
                    rw [hid]
                    exact hI
                | cons p rest =>
                    have hid : (readNextLoop cfg (n + 1) e q1 (p :: rest)).engine
                        = (readNextLoop cfg n (handleDataM cfg .s2 p e) q1
                            rest).engine := by
                      simp [readNextLoop, hD2, hsel]
                    rw [hid]
                    exact ih _ _ _ (handleData_inv cfg .s2 p e hD2 hI)

/-- C8, counterexample to the claim as stated: the StreamStates are not
frozen at settlement, and under the flowing read policy done() does not
remove the data listeners, so a data event arriving after settlement still
mutates a StreamState and re-runs the teardown block (no freeze, mutation
after settlement, teardown more than once). -/
theorem claim_C8_cex :
    settledFlowE.isDone = true ∧
    settledFlowE.teardownCount = 1 ∧
    (dispatchFlowingData cfgFlow .s1 (.pstr "x") settledFlowE).state1.data ≠
      settledFlowE.state1.data ∧
    (dispatchFlowingData cfgFlow .s1 (.pstr "x") settledFlowE).teardownCount
      = 2 := by
  refine ⟨rfl, rfl, ?_, rfl⟩
  decide

/-- C8 (amended): at settlement the controller's tracked listeners are
removed, so every transition through them -- control calls, named event
dispatch, least-policy reads -- leaves the engine exactly unchanged after
settlement, and along those transitions the teardown runs exactly once (the
invariant teardownCount = 1 when settled, 0 before, is preserved).  The
StreamStates are not frozen, and the flowing-mode data listeners escape the
teardown (see the counterexample). -/
theorem claim_C8_teardown (cfg : Config) (e : Engine) :
    (e.isDone = true →
      (∀ cfg2, checkpointOp cfg2 e = e ∧ endOp cfg2 e = e) ∧
      (∀ w name args, dispatchEvent cfg w name args e = e) ∧
      (∀ fuel q1 q2, readNextLoop cfg fuel e q1 q2 = ⟨e, q1, q2, []⟩)) ∧
    (tearInv e →
      tearInv (checkpointOp cfg e) ∧ tearInv (endOp cfg e) ∧
      (∀ w name args, tearInv (dispatchEvent cfg w name args e)) ∧
      (∀ fuel q1 q2, tearInv (readNextLoop cfg fuel e q1 q2).engine)) := by
  constructor
  · intro hD
    exact ⟨fun cfg2 => ⟨by simp [checkpointOp, hD], by simp [endOp, hD]⟩,
      fun w name args => dispatchEvent_done cfg w name args e hD,
      fun fuel q1 q2 => readLoop_done cfg fuel e q1 q2 hD⟩
  · intro hI
    refine ⟨?_, ?_, fun w name args => dispatch_inv cfg w name args e hI,
      fun fuel q1 q2 => readLoop_inv cfg fuel e q1 q2 hI⟩
    · unfold checkpointOp
      by_cases hD : e.isDone = true
      · rw [if_pos hD]
        exact hI
      · rw [if_neg hD]
        have hD2 : e.isDone = false := bool_eq_false_of_ne_true hD
        exact doCompare_inv _ _ e hD2 (tearInv_count_zero e hD2 hI)
    · unfold endOp
      by_cases hD : e.isDone = true
      · rw [if_pos hD]
        exact hI
      · rw [if_neg hD]
        have hD2 : e.isDone = false := bool_eq_false_of_ne_true hD
        exact doCompare_inv _ _ e hD2 (tearInv_count_zero e hD2 hI)

/-- C8 witness: the amended teardown law at a concrete settled engine. -/
theorem claim_C8_witness :
    dispatchEvent cfgBasic .s2 "end" [] settledE = settledE ∧
    tearInv (endOp cfgBasic settledE) :=
  ⟨((claim_C8_teardown cfgBasic settledE).1 rfl).2.1 .s2 "end" [],
   ((claim_C8_teardown cfgBasic settledE).2 (by unfold tearInv; decide)).2.1⟩

/-! ### C9: conclusiveness is exactly non-null non-undefined -/

/-- C9: a returned value is treated as a conclusive verdict exactly when it
is neither null nor undefined -- in particular false, 0 and the empty
string are conclusive and settle (fulfil) the comparison, while null and
undefined are inconclusive and leave it pending (for non-terminal
compares); the comparison settles exactly when the function threw or
returned a conclusive value, and a conclusive incrementalProp result
likewise performs no trimming. -/
theorem claim_C9_conclusive :
    (isConcl (.vBool false) = true ∧ isConcl (.vNum 0) = true ∧
     isConcl (.vStr "") = true ∧ isConcl .vNull = false ∧
     isConcl .vUndefined = false) ∧
    (∀ (f : CompareFn) (ty : CompareType) (e : Engine)
      (out : Except JSException JSVal) (s1 s2 : MStreamState),
      e.result = none → ¬ ty = .last →
      f e.state1 e.state2 = (out, s1, s2) →
      ((doCompare f ty e).2 = true ↔
        (∃ err, out = .error err) ∨ (∃ v, out = .ok v ∧ isConcl v = true)) ∧
      (∀ v, out = .ok v → isConcl v = true →
        (doCompare f ty e).1.result = some (.ok v)) ∧
      (∀ v, out = .ok v → isConcl v = false →
        (doCompare f ty e).1.result = none)) ∧
    (∀ {σ : Type} (len : σ → Nat) (tk dp : Nat → σ → σ) (e1 e2 : Bool)
      (s1 s2 : Option σ)
      (cmp : Option σ → Option σ → Except JSException JSVal)
      (r : JSVal) (t1 t2 : Option σ),
      incrementalProp len tk dp e1 e2 s1 s2 cmp = (.ok r, t1, t2) →
      isConcl r = true → t1 = s1 ∧ t2 = s2) := by
  refine ⟨by decide, ?_, ?_⟩
  · intro f ty e out s1 s2 hP hty hfe
    refine ⟨?_, ?_, ?_⟩
    · cases out with
      | error err =>
          unfold doCompare
          rw [hfe]
          dsimp only
          exact ⟨fun _ => Or.inl ⟨err, rfl⟩, fun _ => rfl⟩
      | ok v =>
          unfold doCompare
          rw [hfe]
          dsimp only
          by_cases hv : isConcl v = true
          · rw [if_pos hv]
            exact ⟨fun _ => Or.inr ⟨v, rfl, hv⟩, fun _ => rfl⟩
          · have hv2 := bool_eq_false_of_ne_true hv
            rw [if_neg hv, if_neg hty]
            constructor
            · intro hcon
              cases hcon
            · rintro (⟨err, herr⟩ | ⟨v2, hveq, hcv⟩)
              · cases herr
              · injection hveq with hveq2
                rw [← hveq2] at hcv
                rw [hcv] at hv2
                cases hv2
    · intro v hvout hcv
      subst hvout
      unfold doCompare
      rw [hfe]
      dsimp only
      rw [if_pos hcv]
      simp [doneE, resolveP, hP]
    · intro v hvout hcv
      subst hvout
      unfold doCompare
      rw [hfe]
      dsimp only
      rw [if_neg (by simp [hcv]), if_neg hty]
      exact hP
  · intro σ len tk dp e1 e2 s1 s2 cmp r t1 t2 hrun hcv
    by_cases hg : (hasEvidence len s1 e1 && hasEvidence len s2 e2) = true
    · simp only [incrementalProp] at hrun
      rw [if_pos hg] at hrun
      obtain ⟨hout, hcase⟩ := applyTrim_ok _ _ _ _ _ _ _ _ hrun
      rcases hcase with ⟨hm0, hr0, ht1, ht2⟩ | ⟨hn, ht1, ht2⟩
      · rw [hcv] at hr0
        cases hr0
      · exact ⟨ht1, ht2⟩
    · simp only [incrementalProp] at hrun
      rw [if_neg hg] at hrun
      simp only [Prod.mk.injEq, Except.ok.injEq] at hrun
      exact ⟨hrun.2.1.symm, hrun.2.2.symm⟩

/-- C9 witness: JS false is a conclusive verdict and fulfils a checkpoint
compare with itself, while a conclusive incrementalProp verdict leaves the
sequences untrimmed. -/
theorem claim_C9_witness :
    isConcl (.vBool false) = true ∧
    (doCompare cmpFalseFn .checkpoint initialEngine).1.result =
      some (.ok (.vBool false)) ∧
    (some [1] = (some [1] : Option (List Nat)) ∧
     some [2] = (some [2] : Option (List Nat))) :=
  ⟨(claim_C9_conclusive.1).1,
   ((claim_C9_conclusive.2.1 cmpFalseFn .checkpoint initialEngine
        (.ok (.vBool false)) initialState initialState rfl (by decide)
        rfl).2.1 (.vBool false) rfl rfl),
   claim_C9_conclusive.2.2 List.length List.take List.drop false false
     (some [1]) (some [2]) cmpDiffList (.vStr "ne") (some [1]) (some [2])
     (by decide) rfl⟩

/-! ### C10: accumulation failure is atomic and settles the comparison -/

/-- C10: in non-object mode, when appending a payload raises an error, the
StreamStates are left exactly unchanged (data and totalDataLen keep their
prior values), the deferred result is rejected with that error and the
comparison settles. -/
theorem claim_C10_atomic (cfg : Config) (w : StreamId) (p : Payload)
    (e : Engine) (err : JSException)
    (hom : cfg.objectMode = false) (hD : e.isDone = false)
    (hP : e.result = none)
    (hErr : addData cfg.objectMode (getState w e).data
      (getState w e).totalDataLen p = .error err) :
    handleDataM cfg w p e =
      { e with
        isDone := true
        result := some (.error err)
        teardownCount := e.teardownCount + 1
        finalScheduled := false } := by
  unfold handleDataM
  dsimp only
  rw [hErr]
  simp [doneE, rejectP, hP]

/-- C10 witness: a Buffer payload after string data rejects with the mixed
type TypeError and settles, leaving both StreamStates unchanged. -/
theorem claim_C10_witness :
    handleDataM cfgBasic .s1 (.pbuf [7]) eStr =
      { eStr with
        isDone := true
        result := some (.error (.typeError
          "read returned [object Uint8Array], previously [object String].  Need objectMode?"))
        teardownCount := eStr.teardownCount + 1
        finalScheduled := false } :=
  claim_C10_atomic cfgBasic .s1 (.pbuf [7]) eStr
    (.typeError
      "read returned [object Uint8Array], previously [object String].  Need objectMode?")
    rfl rfl rfl (by decide)

end StreamCompare
